import Mathlib

/-!
Verification development for the pingu-sdk trading client library.

The definitions below are shallow embeddings of the TypeScript source:
BigNumber arithmetic becomes arbitrary-precision `Int`/`Nat` arithmetic
(BigNumber.div truncates toward zero, hence `Int.tdiv`), JS numbers used
as exact quantities become `Rat`, strings become `List Char` where their
contents are inspected character by character, and fallible code returns
`Except`/`Option`.
-/

namespace PinguSdk

/-- The fixed-point unit used by the on-chain leverage check:
10^18 (ethers.constants.WeiPerEther in the source). -/
def UNIT : Int := 10 ^ 18

/-- The 10-decimal fixed-point scale used by computeSize
(the constant SCALE = 10_000_000_000 in src/src/trading.ts). -/
def SCALE : Int := 10 ^ 10

/-- Shallow embedding of `PinguTrader.computeSize` (src/src/trading.ts,
lines 90-124).  `margin` is a Scaled Amount (a non-negative BigNumber),
`leverage` the desired leverage (a JS number, modelled as an exact
rational), `maxLeverage` the market maximum (an on-chain uint).
`Math.min` is `min`, `Math.floor` is `Int.floor`, and `BigNumber.div`
is truncated division `Int.tdiv`. -/
def computeSize (margin : Nat) (leverage : Rat) (maxLeverage : Nat) : Int :=
  let leverageScaled : Int := Int.floor (min leverage (maxLeverage : Rat) * (SCALE : Rat))
  let size : Int := Int.tdiv ((margin : Int) * leverageScaled) SCALE
  if margin ≠ 0 ∧ size ≠ 0 then
    if (maxLeverage : Int) * UNIT < Int.tdiv (UNIT * size) (margin : Int) then
      if (maxLeverage : Int) * UNIT <
          Int.tdiv (UNIT * ((margin : Int) * (maxLeverage : Int))) (margin : Int) then
        (margin : Int) * (maxLeverage : Int) - 1
      else
        (margin : Int) * (maxLeverage : Int)
    else size
  else size

theorem unit_pos : (0 : Int) < UNIT := by norm_num [UNIT]

theorem scale_pos : (0 : Int) < SCALE := by norm_num [SCALE]

/-- C1: for every margin > 0, desired leverage and integer maxLeverage,
the size returned by computeSize satisfies the exact on-chain check
floor(10^18 * size / margin) <= maxLeverage * 10^18 under floored
integer division, so the remote leverage check cannot reject it. -/
theorem computeSize_passes_onchain_check
    (margin : Nat) (hm : 0 < margin) (leverage : Rat) (maxLeverage : Nat) :
    Int.fdiv (UNIT * computeSize margin leverage maxLeverage) (margin : Int)
      ≤ (maxLeverage : Int) * UNIT := by
  have hm' : (0 : Int) < (margin : Int) := by exact_mod_cast hm
  have hmne : (margin : Int) ≠ 0 := ne_of_gt hm'
  have hrhs : (0 : Int) ≤ (maxLeverage : Int) * UNIT :=
    mul_nonneg (Int.ofNat_nonneg _) (le_of_lt unit_pos)
  simp only [computeSize]
  set L : Int := Int.floor (min leverage (maxLeverage : Rat) * (SCALE : Rat)) with hL
  set s0 : Int := Int.tdiv ((margin : Int) * L) SCALE with hs0
  by_cases hP : margin ≠ 0 ∧ s0 ≠ 0
  · rw [if_pos hP]
    by_cases hQ :
        (maxLeverage : Int) * UNIT < Int.tdiv (UNIT * s0) (margin : Int)
    · rw [if_pos hQ]
      have hre : Int.tdiv (UNIT * ((margin : Int) * (maxLeverage : Int))) (margin : Int)
          = UNIT * (maxLeverage : Int) := by
        have h1 : UNIT * ((margin : Int) * (maxLeverage : Int))
            = (margin : Int) * (UNIT * (maxLeverage : Int)) := by ring
        rw [h1, Int.mul_tdiv_cancel_left _ hmne]
      have hnotR : ¬ ((maxLeverage : Int) * UNIT <
          Int.tdiv (UNIT * ((margin : Int) * (maxLeverage : Int))) (margin : Int)) := by
        rw [hre, mul_comm UNIT ((maxLeverage : Int))]
        exact lt_irrefl _
      rw [if_neg hnotR]
      have hnn : (0 : Int) ≤ UNIT * ((margin : Int) * (maxLeverage : Int)) :=
        mul_nonneg (le_of_lt unit_pos)
          (mul_nonneg (Int.ofNat_nonneg _) (Int.ofNat_nonneg _))
      rw [Int.fdiv_eq_tdiv hnn (Int.ofNat_nonneg _), hre,
        mul_comm UNIT ((maxLeverage : Int))]
    · rw [if_neg hQ]
      push_neg at hQ
      rcases lt_trichotomy s0 0 with hneg | hz | hpos
      · have hlt : UNIT * s0 < 0 := mul_neg_of_pos_of_neg unit_pos hneg
        have := Int.fdiv_neg' hlt hm'
        exact le_trans (le_of_lt this) hrhs
      · exact absurd hz hP.2
      · have hnn : (0 : Int) ≤ UNIT * s0 :=
          mul_nonneg (le_of_lt unit_pos) (le_of_lt hpos)
        rw [Int.fdiv_eq_tdiv hnn (Int.ofNat_nonneg _)]
        exact hQ
  · rw [if_neg hP]
    have hz : s0 = 0 := by
      by_contra hne
      exact hP ⟨hm.ne', hne⟩
    rw [hz, mul_zero, Int.zero_fdiv]
    exact hrhs

/-- Witness for C1 at margin = 100 USDC (6 decimals), leverage 3.7, max 20. -/
theorem computeSize_passes_onchain_check_witness :
    0 < 100000000 ∧
      Int.fdiv (UNIT * computeSize 100000000 (37 / 10) 20) ((100000000 : Nat) : Int)
        ≤ ((20 : Nat) : Int) * UNIT :=
  ⟨by norm_num, computeSize_passes_onchain_check 100000000 (by norm_num) (37 / 10) 20⟩

theorem computeSize_eval_of_le_leverage
    (margin : Nat) (leverage : Rat) (maxLeverage : Nat)
    (h : (maxLeverage : Rat) ≤ leverage) :
    computeSize margin leverage maxLeverage = (margin : Int) * (maxLeverage : Int) := by
  simp only [computeSize]
  rw [min_eq_right h]
  have hfloor : Int.floor ((maxLeverage : Rat) * (SCALE : Rat))
      = (maxLeverage : Int) * SCALE := by
    have hcast : ((maxLeverage : Rat) * (SCALE : Rat))
        = (((maxLeverage : Int) * SCALE : Int) : Rat) := by push_cast; ring
    rw [hcast, Int.floor_intCast]
  rw [hfloor]
  have hs0 : Int.tdiv ((margin : Int) * ((maxLeverage : Int) * SCALE)) SCALE
      = (margin : Int) * (maxLeverage : Int) := by
    have h1 : (margin : Int) * ((maxLeverage : Int) * SCALE)
        = SCALE * ((margin : Int) * (maxLeverage : Int)) := by ring
    rw [h1, Int.mul_tdiv_cancel_left _ (ne_of_gt scale_pos)]
  rw [hs0]
  by_cases hz : margin ≠ 0 ∧ (margin : Int) * (maxLeverage : Int) ≠ 0
  · rw [if_pos hz]
    have hmne : (margin : Int) ≠ 0 := Int.natCast_ne_zero.mpr hz.1
    have hQeq : Int.tdiv (UNIT * ((margin : Int) * (maxLeverage : Int))) (margin : Int)
        = UNIT * (maxLeverage : Int) := by
      have h1 : UNIT * ((margin : Int) * (maxLeverage : Int))
          = (margin : Int) * (UNIT * (maxLeverage : Int)) := by ring
      rw [h1, Int.mul_tdiv_cancel_left _ hmne]
    rw [hQeq]
    rw [if_neg (by rw [mul_comm UNIT ((maxLeverage : Int))]; exact lt_irrefl _)]
  · rw [if_neg hz]

/-- C5: for margin > 0 and desired leverage strictly above the market
maximum, computeSize caps the leverage at maxLeverage and the exact
rational size/margin does not exceed maxLeverage; in particular
margin = 100·10^6 (6-decimal asset), leverage 50, maxLeverage 20
yields size = 2000·10^6 exactly. -/
theorem computeSize_capped_effective_leverage
    (margin : Nat) (hm : 0 < margin) (leverage : Rat) (maxLeverage : Nat)
    (hlev : (maxLeverage : Rat) < leverage) :
    ((computeSize margin leverage maxLeverage : Int) : Rat) / (margin : Rat)
        ≤ (maxLeverage : Rat)
      ∧ computeSize 100000000 50 20 = 2000000000 := by
  constructor
  · rw [computeSize_eval_of_le_leverage margin leverage maxLeverage (le_of_lt hlev)]
    have hmne : (margin : Rat) ≠ 0 := Nat.cast_ne_zero.mpr hm.ne'
    push_cast
    rw [mul_comm, mul_div_assoc, div_self hmne, mul_one]
  · rw [computeSize_eval_of_le_leverage 100000000 50 20 (by norm_num)]
    norm_num

/-- Witness for C5 at margin = 100·10^6, leverage 50, maxLeverage 20. -/
theorem computeSize_capped_effective_leverage_witness :
    ((20 : Nat) : Rat) < 50 ∧
      (((computeSize 100000000 50 20 : Int) : Rat) / ((100000000 : Nat) : Rat)
          ≤ ((20 : Nat) : Rat)
        ∧ computeSize 100000000 50 20 = 2000000000) :=
  ⟨by norm_num,
    computeSize_capped_effective_leverage 100000000 (by norm_num) 50 20 (by norm_num)⟩

/-! String machinery.  JS strings are inspected character by character,
so the embedding works on `List Char` obtained from `String.data`. -/

/-- ASCII lowercase conversion, as performed by the JS regex i-flag and
String.prototype.toLowerCase on ASCII input. -/
def lowerChar (c : Char) : Char :=
  if 'A' ≤ c ∧ c ≤ 'Z' then Char.ofNat (c.toNat + 32) else c

/-- Lowercase an entire string (String.prototype.toLowerCase on ASCII). -/
def lowerStr (s : String) : String := String.mk (s.data.map lowerChar)

/-- JS whitespace characters matched by the regex class backslash-s
(restricted to the ASCII range relevant here). -/
def isJsWs (c : Char) : Bool :=
  c == ' ' || c == '\t' || c == '\n' || c == '\x0d' || c == '\x0b' || c == '\x0c'

/-- Does the pattern occur at the head of the string (exact match)? -/
def leadsWith : List Char → List Char → Bool
  | [], _ => true
  | _ :: _, [] => false
  | p :: ps, c :: cs => p == c && leadsWith ps cs

/-- Does the pattern occur at the head of the string, case-insensitively? -/
def leadsWithCI : List Char → List Char → Bool
  | [], _ => true
  | _ :: _, [] => false
  | p :: ps, c :: cs => lowerChar p == lowerChar c && leadsWithCI ps cs

/-- Does the pattern occur anywhere in the string
(String.prototype.includes)? -/
def containsSeg (pat : List Char) : List Char → Bool
  | [] => pat.isEmpty
  | c :: cs => leadsWith pat (c :: cs) || containsSeg pat cs

/-- Case-insensitive substring test (a JS regex with the i flag, such as
the /revert/i test in isKnownEvmRevert). -/
def containsSegCI (pat : List Char) (s : List Char) : Bool :=
  containsSeg (pat.map lowerChar) (s.map lowerChar)

/-- The literal marker scanned for by both error-inspection regexes. -/
def revertMarker : List Char := "execution reverted:".data

/-- After the marker, the regex tail matching whitespace-star then a bang:
skip JS whitespace greedily and require the next character to be the
exclamation mark. -/
def bangAfterWs (s : List Char) : Bool :=
  match s.dropWhile isJsWs with
  | '!' :: _ => true
  | _ => false

/-- The test of the regex (execution reverted, whitespace-star, bang) used
by isKnownEvmRevert: true when some position of the string matches the
marker immediately followed (after optional whitespace) by a bang. -/
def revertBangScan : List Char → Bool
  | [] => false
  | c :: cs =>
      (leadsWith revertMarker (c :: cs) && bangAfterWs ((c :: cs).drop revertMarker.length))
        || revertBangScan cs

/-- Line terminators: characters the JS regex dot does not match. -/
def lineTerm (c : Char) : Bool := c == '\n' || c == '\x0d'

/-- The capture group (dot-plus): the maximal run of non-line-terminator
characters from the current position; none when no such character is
available. -/
def captureRest (s : List Char) : Option (List Char) :=
  match s.takeWhile (fun c => !lineTerm c) with
  | [] => none
  | c :: cs => some (c :: cs)

/-- Backtracking over the whitespace-star run: try consuming j whitespace
characters, largest first, until the capture group can match. -/
def wsCaptureAux (s : List Char) : Nat → Option (List Char)
  | 0 => captureRest s
  | j + 1 =>
      match captureRest (s.drop (j + 1)) with
      | some l => some l
      | none => wsCaptureAux s j

/-- Greedy whitespace-star followed by the dot-plus capture. -/
def wsCapture (s : List Char) : Option (List Char) :=
  wsCaptureAux s (s.takeWhile isJsWs).length

/-- First match of the capture regex of parseContractError
(execution reverted, case-insensitive, whitespace-star, captured rest):
scan left to right for the first position where the whole pattern
matches and return the captured text. -/
def revertCaptureScan : List Char → Option (List Char)
  | [] => none
  | c :: cs =>
      if leadsWithCI revertMarker (c :: cs) then
        match wsCapture ((c :: cs).drop revertMarker.length) with
        | some cap => some cap
        | none => revertCaptureScan cs
      else revertCaptureScan cs

/-- JS String.prototype.trim: drop whitespace from both ends. -/
def trimChars (s : List Char) : List Char :=
  ((s.dropWhile isJsWs).reverse.dropWhile isJsWs).reverse

/-- Drop one leading apostrophe if present (half of the quote-stripping
replace in parseContractError). -/
def dropLeadQuote : List Char → List Char
  | [] => []
  | c :: cs => if c == '\'' then cs else c :: cs

/-- The replace of the anchored quote regex: drop one leading and one
trailing apostrophe. -/
def stripQuotes (s : List Char) : List Char :=
  (dropLeadQuote (dropLeadQuote s).reverse).reverse

/-- The fixed code-to-text table REVERT_MESSAGES of src/src/utils.ts,
in source (insertion) order. -/
def REVERT_MESSAGES : List (String × String) :=
  [("!paused", "New orders are currently paused"),
   ("!order-type", "Invalid order type (must be 0=market, 1=limit, 2=stop)"),
   ("!price", "Price must be > 0 for limit/stop orders"),
   ("!asset-exists", "Asset is not supported by the protocol"),
   ("!min-size", "Order size is below minimum for this asset"),
   ("!market-exists", "Market does not exist"),
   ("!expiry-value", "Order expiry must be in the future"),
   ("!max-expiry", "Order expiry exceeds maximum TTL"),
   ("!user-oco", "Cannot cancel another user's order"),
   ("!market-reduce-only", "This market only accepts reduce-only orders"),
   ("!margin", "Invalid margin amount"),
   ("!min-leverage", "Leverage is below minimum (1x)"),
   ("!max-leverage", "Leverage exceeds the maximum allowed for this market"),
   ("!order", "Order does not exist"),
   ("!user", "Not the order owner"),
   ("!max-oi", "Maximum open interest reached for this market"),
   ("!max-delta", "Maximum long/short delta reached for this market"),
   ("!position", "No position found for this user/asset/market"),
   ("!pnl-positive", "Position must be in profit to use closePositionWithoutProfit"),
   ("!max-age", "Pyth price data is too old, try again"),
   ("!upl", "Unrealized loss too high to remove this much margin"),
   ("!pool-risk", "Pool drawdown limit reached"),
   ("!max-position-size", "Maximum position size reached"),
   ("!asset", "Asset is not supported"),
   ("!amount", "Amount must be greater than 0"),
   ("!tax", "Deposit/withdrawal tax too high, operation blocked"),
   ("!empty", "Pool is empty"),
   ("!locked-amount", "Insufficient unlocked balance for withdrawal"),
   ("!payout-period", "Buffer payout period not configured"),
   ("!pool-balance", "Insufficient pool balance"),
   ("!tp-invalid", "Take profit price is invalid for this direction"),
   ("!sl-invalid", "Stop loss price is invalid for this direction"),
   ("!tpsl-invalid", "TP and SL prices are invalid relative to each other"),
   ("!unauthorized", "Unauthorized caller")]

/-- The vendor-shaped error object inspected by the classifier and the
message formatter: an optional code, an optional nested error.reason,
and optional top-level reason and message strings. -/
structure JSError where
  code : Option String
  errorReason : Option String
  reason : Option String
  message : Option String
deriving DecidableEq

/-- JS truthy-or on an optional string: an absent or empty string falls
through to the alternative. -/
def jsOrStr (a : Option String) (b : String) : String :=
  match a with
  | some s => if s = "" then b else s
  | none => b

/-- The reason string selected by isKnownEvmRevert:
error.error.reason, else error.reason, else error.message, else empty. -/
def errReason (e : JSError) : String :=
  jsOrStr e.errorReason (jsOrStr e.reason (jsOrStr e.message ""))

/-- The raw string selected by parseContractError: same chain but
falling back to String(error), modelled as the generic JS object
rendering (never reached by the claims, whose errors carry messages). -/
def errRaw (e : JSError) : String :=
  jsOrStr e.errorReason (jsOrStr e.reason (jsOrStr e.message "[object Object]"))

/-- Shallow embedding of isKnownEvmRevert (src/src/utils.ts, lines
231-255): the error classifier.  Returns true for business rejections
(known EVM reverts), false for transport failures. -/
def isKnownEvmRevert (e : JSError) : Bool :=
  let reason := errReason e
  if e.code == some "CALL_EXCEPTION" then true
  else if revertBangScan reason.data then true
  else if e.code == some "UNPREDICTABLE_GAS_LIMIT"
      && containsSegCI ("revert".data) reason.data then true
  else REVERT_MESSAGES.any (fun p => containsSeg p.1.data reason.data)

/-- Lookup a captured code in the table (object property access). -/
def revertTableLookup (code : List Char) : Option String :=
  (REVERT_MESSAGES.find? (fun p => p.1.data == code)).map (fun p => p.2)

/-- Shallow embedding of parseContractError (src/src/utils.ts, lines
200-225): maps a recognised revert code to a human-readable message,
passing unrecognised errors through verbatim. -/
def parseContractError (e : JSError) : String :=
  let raw := errRaw e
  match revertCaptureScan raw.data with
  | some cap =>
      let code := stripQuotes (trimChars cap)
      match revertTableLookup code with
      | some txt => txt ++ " (" ++ String.mk code ++ ")"
      | none => String.mk code
  | none =>
      match REVERT_MESSAGES.find? (fun p => containsSeg p.1.data raw.data) with
      | some p => p.2 ++ " (" ++ p.1 ++ ")"
      | none => raw

/-- An error carrying only a message (the common transport shape). -/
def msgErr (m : String) : JSError :=
  { code := none, errorReason := none, reason := none, message := some m }

/-- Does the string begin with an exclamation mark (the shape of a short
reason code in the claim wording)? -/
def bangLeads (s : String) : Bool :=
  match s.data with
  | '!' :: _ => true
  | _ => false

/-- The classifier as the claim originally words it: (1) structured
call-reverted marker together with a reason code beginning with a bang;
(2) message contains the literal marker followed by such a bang-code;
(3) message contains any known bang-code from the taxonomy; otherwise a
transport failure.  Written from the claim text, to compare against the
source classifier. -/
def claimClassifierOriginal (e : JSError) : Bool :=
  (e.code == some "CALL_EXCEPTION" && bangLeads (errReason e))
    || revertBangScan (errReason e).data
    || REVERT_MESSAGES.any (fun p => containsSeg p.1.data (errReason e).data)

/-- The classifier as amended: the structured call-reverted marker alone
suffices (no bang requirement), and a failed gas estimation whose
message mentions a revert (case-insensitively) is also a business
rejection.  Written from the amended claim text. -/
def claimClassifierAmended (e : JSError) : Bool :=
  (e.code == some "CALL_EXCEPTION")
    || revertBangScan (errReason e).data
    || (e.code == some "UNPREDICTABLE_GAS_LIMIT"
          && containsSegCI ("revert".data) (errReason e).data)
    || REVERT_MESSAGES.any (fun p => containsSeg p.1.data (errReason e).data)

/-- A structured call-exception whose reason carries no bang-code: ethers
raises these for calls that revert without reason data. -/
def callExcNoBang : JSError :=
  { code := some "CALL_EXCEPTION", errorReason := none, reason := none,
    message := some "missing revert data in call exception" }

/-- C4 counterexample: the source classifier returns BusinessRejection
for a structured CALL_EXCEPTION even though its reason carries no code
beginning with a bang, no marker-plus-bang substring and no taxonomy
code, so the claim's exactly-when characterisation is false. -/
theorem isKnownEvmRevert_claim_counterexample :
    isKnownEvmRevert callExcNoBang = true
      ∧ claimClassifierOriginal callExcNoBang = false := by
  constructor
  · rfl
  · rfl

/-- C4 amended: the classifier returns BusinessRejection exactly when
one of these holds: (1) the error carries the structured call-reverted
marker (regardless of reason code); (2) the reason string contains the
literal marker followed, after optional whitespace, by a bang; (3) the
error is a failed gas estimation whose reason mentions a revert
case-insensitively; (4) the reason contains a known bang-code from the
taxonomy; in every other case it returns TransportFailure. -/
theorem isKnownEvmRevert_matches_amended_claim (e : JSError) :
    isKnownEvmRevert e = claimClassifierAmended e := by
  simp only [isKnownEvmRevert, claimClassifierAmended]
  cases h1 : (e.code == some "CALL_EXCEPTION") <;>
    cases h2 : revertBangScan (errReason e).data <;>
      cases h3 : (e.code == some "UNPREDICTABLE_GAS_LIMIT"
          && containsSegCI ("revert".data) (errReason e).data) <;>
    simp [h1, h2, h3]

/-- C9 counterexample: a message that contains the marker followed by a
table code but continues with further text is not mapped through the
table; the whole captured remainder is returned raw instead. -/
theorem parseContractError_claim_counterexample :
    containsSeg ("execution reverted: !min-size").data
        (errRaw (msgErr "execution reverted: !min-size extra")).data = true
      ∧ parseContractError (msgErr "execution reverted: !min-size extra")
          ≠ "Order size is below minimum for this asset (!min-size)"
      ∧ parseContractError (msgErr "execution reverted: !min-size extra")
          = "!min-size extra" := by
  refine ⟨by decide, by decide, by decide⟩

/-- C9 amended: for every code of the table, an error whose message is
the marker followed by that code alone maps to the table text with the
code appended in parentheses; a code after the marker that is not in
the table is returned as the raw code; and an error containing no
marker and no recognised code passes through verbatim. -/
theorem parseContractError_table_mapping :
    (∀ p ∈ REVERT_MESSAGES,
        parseContractError (msgErr ("execution reverted: " ++ p.1))
          = p.2 ++ " (" ++ p.1 ++ ")")
      ∧ parseContractError (msgErr "execution reverted: !bogus") = "!bogus"
      ∧ parseContractError (msgErr "connection refused") = "connection refused" := by
  refine ⟨by decide, by decide, by decide⟩

/-- Witness for C9 at the min-size code of the table. -/
theorem parseContractError_table_mapping_witness :
    parseContractError (msgErr ("execution reverted: " ++ "!min-size"))
      = "Order size is below minimum for this asset" ++ " (" ++ "!min-size" ++ ")" :=
  parseContractError_table_mapping.1
    ("!min-size", "Order size is below minimum for this asset") (by decide)

/-! The Resilient Call Executor: PinguClient.withFallback. -/

/-- Outcome of one invocation of the operation passed to withFallback. -/
inductive CallOutcome (α : Type) where
  | ok (value : α)
  | err (e : JSError)

/-- How a withFallback run ends: a value, an immediately re-thrown
business rejection, or the aggregate error after pool exhaustion. -/
inductive FBOutcome (α : Type) where
  | ok (value : α)
  | thrown (e : JSError)
  | exhausted (msg : String)

/-- Trace of a withFallback run: final outcome, number of times the
operation was invoked, number of endpoint switches performed, and the
endpoint indices the attempts ran against, in order. -/
structure FBRun (α : Type) where
  outcome : FBOutcome α
  calls : Nat
  switches : Nat
  usedIndices : List Nat

/-- Rendering of the JS template interpolation of lastError.message. -/
def renderLastMsg : Option JSError → String
  | none => "undefined"
  | some e =>
      match e.message with
      | some m => m
      | none => "undefined"

/-- The aggregate failure message built after exhausting the pool. -/
def aggregateMsg (totalRpcs : Nat) (lastError : Option JSError) : String :=
  "All " ++ toString totalRpcs ++ " RPC endpoints failed. Last error: "
    ++ renderLastMsg lastError

/-- Shallow embedding of the retry loop of PinguClient.withFallback.
fn maps the attempt number to that attempt's outcome (the operation may
behave differently on different attempts since endpoints change);
rpcIndex is currentRpcIndex, advanced modulo totalRpcs exactly when
switchToNextRpc runs (a transport failure with attempts left). -/
def withFallbackLoop (fn : Nat → CallOutcome α) (totalRpcs : Nat) :
    Nat → Nat → Option JSError → FBRun α
  | rpcIndex, attempt, lastError =>
    if h : attempt < totalRpcs then
      match fn attempt with
      | .ok v =>
          { outcome := .ok v, calls := 1, switches := 0, usedIndices := [rpcIndex] }
      | .err e =>
          if isKnownEvmRevert e then
            { outcome := .thrown e, calls := 1, switches := 0, usedIndices := [rpcIndex] }
          else if attempt < totalRpcs - 1 then
            let rest := withFallbackLoop fn totalRpcs
              ((rpcIndex + 1) % totalRpcs) (attempt + 1) (some e)
            { outcome := rest.outcome, calls := rest.calls + 1,
              switches := rest.switches + 1, usedIndices := rpcIndex :: rest.usedIndices }
          else
            let rest := withFallbackLoop fn totalRpcs rpcIndex (attempt + 1) (some e)
            { outcome := rest.outcome, calls := rest.calls + 1,
              switches := rest.switches, usedIndices := rpcIndex :: rest.usedIndices }
    else
      { outcome := .exhausted (aggregateMsg totalRpcs lastError),
        calls := 0, switches := 0, usedIndices := [] }
termination_by rpcIndex attempt lastError => totalRpcs - attempt
decreasing_by all_goals omega

/-- A full withFallback call: the loop started at attempt 0 with the
client's current endpoint index and no recorded failure. -/
def withFallbackRun (fn : Nat → CallOutcome α) (totalRpcs startIndex : Nat) : FBRun α :=
  withFallbackLoop fn totalRpcs startIndex 0 none

theorem range_map_mod_shift (N idx d : Nat) (hidx : idx < N) :
    idx :: (List.range d).map (fun k => ((idx + 1) % N + k) % N)
      = (List.range (d + 1)).map (fun k => (idx + k) % N) := by
  rw [List.range_succ_eq_map, List.map_cons, List.map_map]
  refine congrArg₂ List.cons ?_ ?_
  · rw [Nat.add_zero, Nat.mod_eq_of_lt hidx]
  · refine List.map_congr_left (fun k hk => ?_)
    simp only [Function.comp]
    rw [Nat.mod_add_mod]
    congr 1
    omega

theorem withFallbackLoop_all_fail (fn : Nat → CallOutcome α) (N : Nat)
    (errs : Nat → JSError)
    (hfn : ∀ i, i < N → fn i = CallOutcome.err (errs i))
    (htrans : ∀ i, i < N → isKnownEvmRevert (errs i) = false) :
    ∀ d idx a lastE, a + d = N → d ≠ 0 → idx < N →
      withFallbackLoop fn N idx a lastE =
        { outcome := FBOutcome.exhausted (aggregateMsg N (some (errs (N - 1)))),
          calls := d, switches := d - 1,
          usedIndices := (List.range d).map (fun k => (idx + k) % N) } := by
  intro d
  induction d with
  | zero => intro idx a lastE _ hd _; exact absurd rfl hd
  | succ d ih =>
    intro idx a lastE hsum _ hidx
    have ha : a < N := by omega
    rw [withFallbackLoop]
    rw [dif_pos ha, hfn a ha]
    simp only [htrans a ha, Bool.false_eq_true, if_false]
    by_cases hd0 : d = 0
    · subst hd0
      have hlast : ¬ a < N - 1 := by omega
      rw [if_neg hlast, withFallbackLoop]
      rw [dif_neg (by omega : ¬ a + 1 < N)]
      have haN : a = N - 1 := by omega
      subst haN
      simp [Nat.mod_eq_of_lt hidx, List.range_succ]
    · have hmid : a < N - 1 := by omega
      rw [if_pos hmid]
      rw [ih ((idx + 1) % N) (a + 1) (some (errs a)) (by omega) hd0
        (Nat.mod_lt _ (by omega))]
      have hmap := range_map_mod_shift N idx d hidx
      simp only [FBRun.mk.injEq]
      exact ⟨trivial, trivial, by omega, hmap⟩

/-- C2: for every endpoint pool of size N >= 1, if every attempt fails
with a transport-classified error, the operation is invoked exactly N
times, each endpoint index is tried at most once, and the run ends with
the aggregate error naming N and the last observed failure's message. -/
theorem withFallback_exhausts_all_endpoints {α : Type} (N startIdx : Nat)
    (hN : 1 ≤ N) (hstart : startIdx < N)
    (fn : Nat → CallOutcome α) (errs : Nat → JSError)
    (hfn : ∀ i, i < N → fn i = CallOutcome.err (errs i))
    (htrans : ∀ i, i < N → isKnownEvmRevert (errs i) = false) :
    (withFallbackRun fn N startIdx).calls = N
      ∧ (withFallbackRun fn N startIdx).outcome
          = FBOutcome.exhausted ("All " ++ toString N
              ++ " RPC endpoints failed. Last error: "
              ++ renderLastMsg (some (errs (N - 1))))
      ∧ (withFallbackRun fn N startIdx).usedIndices.Nodup := by
  have h := withFallbackLoop_all_fail fn N errs hfn htrans N startIdx 0 none
    (by omega) (by omega) hstart
  rw [withFallbackRun, h]
  refine ⟨rfl, rfl, ?_⟩
  refine List.Nodup.map_on ?_ (List.nodup_range N)
  intro x hx y hy hxy
  rw [List.mem_range] at hx hy
  have hmod : x % N = y % N := Nat.ModEq.add_left_cancel' startIdx hxy
  rwa [Nat.mod_eq_of_lt hx, Nat.mod_eq_of_lt hy] at hmod

theorem withFallbackLoop_until_revert (fn : Nat → CallOutcome α) (N : Nat)
    (errs : Nat → JSError) (j : Nat) (e : JSError) (hj : j < N)
    (hprev : ∀ i, i < j →
      fn i = CallOutcome.err (errs i) ∧ isKnownEvmRevert (errs i) = false)
    (hfj : fn j = CallOutcome.err e) (hrev : isKnownEvmRevert e = true) :
    ∀ d idx a lastE, a + d = j → idx < N →
      withFallbackLoop fn N idx a lastE =
        { outcome := FBOutcome.thrown e, calls := d + 1, switches := d,
          usedIndices := (List.range (d + 1)).map (fun k => (idx + k) % N) } := by
  intro d
  induction d with
  | zero =>
    intro idx a lastE hsum hidx
    have haj : a = j := by omega
    subst haj
    rw [withFallbackLoop]
    rw [dif_pos (by omega : a < N), hfj]
    simp [hrev, Nat.mod_eq_of_lt hidx, List.range_succ]
  | succ d ih =>
    intro idx a lastE hsum hidx
    have haj : a < j := by omega
    have ha : a < N := by omega
    rw [withFallbackLoop]
    rw [dif_pos ha, (hprev a haj).1]
    simp only [(hprev a haj).2, Bool.false_eq_true, if_false]
    rw [if_pos (by omega : a < N - 1)]
    rw [ih ((idx + 1) % N) (a + 1) (some (errs a)) (by omega)
      (Nat.mod_lt _ (by omega))]
    have hmap := range_map_mod_shift N idx (d + 1) hidx
    simp only [FBRun.mk.injEq]
    exact ⟨trivial, trivial, trivial, hmap⟩

/-- C3: if the operation fails on some attempt with an error classified
as a business rejection, and all earlier attempts failed with transport
errors, withFallback re-throws that exact error immediately: the
operation runs exactly k+1 times and the rejection itself triggers no
endpoint switch (only the k earlier transport failures did). -/
theorem withFallback_business_rejection_immediate {α : Type}
    (N startIdx k : Nat) (hstart : startIdx < N) (hk : k < N)
    (fn : Nat → CallOutcome α) (errs : Nat → JSError) (e : JSError)
    (hprev : ∀ i, i < k →
      fn i = CallOutcome.err (errs i) ∧ isKnownEvmRevert (errs i) = false)
    (hfk : fn k = CallOutcome.err e) (hrev : isKnownEvmRevert e = true) :
    (withFallbackRun fn N startIdx).outcome = FBOutcome.thrown e
      ∧ (withFallbackRun fn N startIdx).calls = k + 1
      ∧ (withFallbackRun fn N startIdx).switches = k := by
  have h := withFallbackLoop_until_revert fn N errs k e hk hprev hfk hrev
    k startIdx 0 none (by omega) hstart
  rw [withFallbackRun, h]
  exact ⟨rfl, rfl, rfl⟩

/-- A transport-shaped failure used by the withFallback witnesses. -/
def timeoutErr : JSError := msgErr "connection timeout"

/-- A business-rejection-shaped failure used by the withFallback
witnesses. -/
def revertErr : JSError := msgErr "execution reverted: !margin"

/-- An operation failing with a transport error on every attempt. -/
def allFailFn : Nat → CallOutcome Nat := fun _ => CallOutcome.err timeoutErr

/-- An operation failing with a transport error on attempt 0 and a
business rejection on every later attempt. -/
def revertAtOneFn : Nat → CallOutcome Nat := fun i =>
  CallOutcome.err (if i = 0 then timeoutErr else revertErr)

/-- Witness for C2 on a pool of two endpoints, both timing out. -/
theorem withFallback_exhausts_all_endpoints_witness :
    (withFallbackRun allFailFn 2 0).calls = 2
      ∧ (withFallbackRun allFailFn 2 0).outcome
          = FBOutcome.exhausted ("All " ++ toString 2
              ++ " RPC endpoints failed. Last error: "
              ++ renderLastMsg (some ((fun _ => timeoutErr) (2 - 1))))
      ∧ (withFallbackRun allFailFn 2 0).usedIndices.Nodup :=
  withFallback_exhausts_all_endpoints 2 0 (by norm_num) (by norm_num)
    allFailFn (fun _ => timeoutErr) (fun _ _ => rfl)
    (fun _ _ => (by decide : isKnownEvmRevert timeoutErr = false))

/-- Witness for C3 on a pool of three endpoints: a timeout on attempt 0
followed by a business rejection on attempt 1. -/
theorem withFallback_business_rejection_immediate_witness :
    (withFallbackRun revertAtOneFn 3 0).outcome = FBOutcome.thrown revertErr
      ∧ (withFallbackRun revertAtOneFn 3 0).calls = 1 + 1
      ∧ (withFallbackRun revertAtOneFn 3 0).switches = 1 :=
  withFallback_business_rejection_immediate 3 0 1 (by norm_num) (by norm_num)
    revertAtOneFn (fun _ => timeoutErr) revertErr
    (fun i hi => by
      have : i = 0 := by omega
      subst this
      exact ⟨rfl, by decide⟩)
    rfl (by decide)

/-! Endpoint pool, connection lifecycle, and address resolution. -/

/-- The client state relevant to endpoint switching and address
resolution: pool size, active endpoint index and the address cache.
The provider, signer and dataStore bindings that switchToNextRpc
rebuilds carry no state the claims depend on. -/
structure ClientState where
  rpcCount : Nat
  currentRpcIndex : Nat
  addressCache : List (String × String)

/-- Shallow embedding of PinguClient.switchToNextRpc: advance the index
modulo the pool size, rebuild the connection handles, and clear the
address cache. -/
def switchToNextRpc (s : ClientState) : ClientState :=
  { s with currentRpcIndex := (s.currentRpcIndex + 1) % s.rpcCount,
           addressCache := [] }

/-- Map.get on the address cache. -/
def cacheGet (cache : List (String × String)) (name : String) : Option String :=
  (cache.find? (fun p => p.1 == name)).map (fun p => p.2)

/-- Result of one getContractAddress resolution: the address, the state
afterwards, and whether a fresh registry (dataStore.getAddress) lookup
was issued. -/
structure ResolveResult where
  address : String
  state : ClientState
  freshLookup : Bool

/-- Shallow embedding of PinguClient.getContractAddress: return the
cached address when present (and truthy, matching the JS if-test);
otherwise resolve through the registry, populate the cache and return.
The registry call runs inside withFallback in the source; here the
registry is the resolved name-to-address mapping. -/
def getContractAddress (registry : String → String) (s : ClientState)
    (name : String) : ResolveResult :=
  let hit :=
    match cacheGet s.addressCache name with
    | some cached => if cached == "" then none else some cached
    | none => none
  match hit with
  | some cached => { address := cached, state := s, freshLookup := false }
  | none =>
      let addr := registry name
      { address := addr,
        state := { s with addressCache := (name, addr) :: s.addressCache },
        freshLookup := true }

/-- C7: every endpoint switch clears the address cache in full, and the
first resolution of any name after a switch — including one cached
before the switch — issues a fresh registry lookup and returns the
registry's answer, never a pre-switch cached value. -/
theorem switch_clears_cache_forces_fresh_lookup
    (s : ClientState) (registry : String → String) (name : String) :
    (switchToNextRpc s).addressCache = []
      ∧ (getContractAddress registry (switchToNextRpc s) name).freshLookup = true
      ∧ (getContractAddress registry (switchToNextRpc s) name).address
          = registry name :=
  ⟨rfl, rfl, rfl⟩

/-! Trading operations: closePosition and the position reads. -/

/-- Per-asset configuration (address and decimal scale). -/
structure AssetCfg where
  address : String
  decimals : Nat
deriving DecidableEq

/-- The zero address used for the user field of fresh order tuples. -/
def ADDRESS_ZERO : String := "0x0000000000000000000000000000000000000000"

/-- An order tuple as built by createOrderTuple (src/src/utils.ts). -/
structure OrderTupleM where
  orderId : Nat
  user : String
  asset : String
  market : String
  margin : Nat
  size : Nat
  price : Nat
  fee : Nat
  isLong : Bool
  orderType : Nat
  isReduceOnly : Bool
  timestamp : Nat
  expiry : Nat
  cancelOrderId : Nat
deriving DecidableEq

/-- Shallow embedding of createOrderTuple: zero/default-filled fields
around the caller-supplied ones. -/
def createOrderTuple (asset market : String) (isLong : Bool)
    (margin size price orderType : Nat) (isReduceOnly : Bool) : OrderTupleM :=
  { orderId := 0, user := ADDRESS_ZERO, asset := asset, market := market,
    margin := margin, size := size, price := price, fee := 0,
    isLong := isLong, orderType := orderType, isReduceOnly := isReduceOnly,
    timestamp := 0, expiry := 0, cancelOrderId := 0 }

/-- A raw position as returned by PositionStore.getUserPositions. -/
structure RawChainPosition where
  user : String
  asset : String
  market : String
  isLong : Bool
  size : Nat
  margin : Nat
  fundingTracker : Int
  price : Nat
  timestamp : Nat
deriving DecidableEq

/-- Output shape of getPositionsRaw: the raw BigNumber values renamed. -/
structure PositionRawM where
  user : String
  asset : String
  market : String
  isLong : Bool
  sizeRaw : Nat
  marginRaw : Nat
  fundingTracker : Int
  priceRaw : Nat
  timestamp : Nat
deriving DecidableEq

/-- Shallow embedding of the pure transformation PinguTrader.
getPositionsRaw applies to the position store's reply: drop zero-size
entries and rename the fields. -/
def getPositionsRaw (raw : List RawChainPosition) : List PositionRawM :=
  (raw.filter (fun p => !(p.size == 0))).map (fun p =>
    { user := p.user, asset := p.asset, market := p.market, isLong := p.isLong,
      sizeRaw := p.size, marginRaw := p.margin,
      fundingTracker := p.fundingTracker, priceRaw := p.price,
      timestamp := p.timestamp })

/-- Shallow embedding of calculateLeverage (src/src/utils.ts): zero
margin gives 0; otherwise size·1000 / margin under truncated BigNumber
division, scaled back by 1000 as an exact rational. -/
def calculateLeverage (size margin : Nat) : Rat :=
  if margin = 0 then 0 else ((size * 1000 / margin : Nat) : Rat) / 1000

/-- Shallow embedding of getAssetNameByAddress: the first configured
asset whose address matches case-insensitively. -/
def getAssetNameByAddress (address : String)
    (assets : List (String × AssetCfg)) : Option String :=
  (assets.find? (fun p => lowerStr p.2.address == lowerStr address)).map
    (fun p => p.1)

/-- Output shape of getPositions: asset resolved to its configured name
plus derived display fields.  The JS float price is modelled as the
exact rational the formatted string denotes. -/
structure PositionM where
  user : String
  asset : String
  market : String
  isLong : Bool
  size : Nat
  margin : Nat
  fundingTracker : Int
  price : Rat
  timestamp : Nat
  leverage : Rat

/-- Shallow embedding of the pure transformation of
PinguTrader.getPositions: drop zero-size entries, resolve asset names
and derive price and leverage. -/
def getPositions (assets : List (String × AssetCfg))
    (raw : List RawChainPosition) : List PositionM :=
  (raw.filter (fun p => !(p.size == 0))).map (fun p =>
    { user := p.user,
      asset := (getAssetNameByAddress p.asset assets).getD p.asset,
      market := p.market, isLong := p.isLong, size := p.size,
      margin := p.margin, fundingTracker := p.fundingTracker,
      price := (p.price : Rat) / (10 ^ 18 : Rat),
      timestamp := p.timestamp,
      leverage := calculateLeverage p.size p.margin })

/-- C10: getPositionsRaw and getPositions return only positions with
nonzero size — every entry whose raw on-chain size is zero is filtered
out of the result. -/
theorem positions_zero_size_filtered
    (assets : List (String × AssetCfg)) (raw : List RawChainPosition) :
    (∀ q ∈ getPositionsRaw raw, q.sizeRaw ≠ 0)
      ∧ (∀ q ∈ getPositions assets raw, q.size ≠ 0) := by
  constructor <;>
  · intro q hq
    simp only [getPositionsRaw, getPositions, List.mem_map, List.mem_filter] at hq
    obtain ⟨p, ⟨hp, hpsz⟩, rfl⟩ := hq
    simpa using hpsz

/-- A sample nonzero raw position for the C10 witness. -/
def samplePos : RawChainPosition :=
  { user := "0x1111111111111111111111111111111111111111",
    asset := "0xaf88d065e77c8cC2239327C5EDb3A432268e5831",
    market := "ETH-USD", isLong := true, size := 5000000, margin := 1000000,
    fundingTracker := 0, price := 2000000000000000000000,
    timestamp := 1700000000 }

/-- The entry getPositionsRaw produces for samplePos. -/
def samplePosRaw : PositionRawM :=
  { user := "0x1111111111111111111111111111111111111111",
    asset := "0xaf88d065e77c8cC2239327C5EDb3A432268e5831",
    market := "ETH-USD", isLong := true, sizeRaw := 5000000,
    marginRaw := 1000000, fundingTracker := 0,
    priceRaw := 2000000000000000000000, timestamp := 1700000000 }

/-- Witness for C10 at a one-position store. -/
theorem positions_zero_size_filtered_witness : samplePosRaw.sizeRaw ≠ 0 :=
  (positions_zero_size_filtered [] [samplePos]).1 samplePosRaw (by decide)

/-- Parameters of closePosition; size is the optional raw scaled close
size (the human-to-scaled conversion of an explicit size argument is
outside the scope of the claim settled here). -/
structure ClosePosParams where
  market : String
  isLong : Bool
  asset : Option String
  size : Option Nat

instance instDecEqExcept {ε α : Type} [DecidableEq ε] [DecidableEq α] :
    DecidableEq (Except ε α)
  | Except.error a, Except.error b =>
      if h : a = b then isTrue (h ▸ rfl)
      else isFalse (fun hc => h (by injection hc))
  | Except.error _, Except.ok _ => isFalse (fun hc => Except.noConfusion hc)
  | Except.ok _, Except.error _ => isFalse (fun hc => Except.noConfusion hc)
  | Except.ok a, Except.ok b =>
      if h : a = b then isTrue (h ▸ rfl)
      else isFalse (fun hc => h (by injection hc))

/-- Trace of a closePosition call: the thrown error or built close
order, the number of remote reads issued (the position fetch) and the
number of remote order-submitting calls issued. -/
structure CloseRun where
  result : Except String OrderTupleM
  remoteReads : Nat
  orderSubmits : Nat
deriving DecidableEq

/-- Asset lookup in the configuration record. -/
def assetLookup (assets : List (String × AssetCfg)) (name : String) :
    Option AssetCfg :=
  (assets.find? (fun p => p.1 == name)).map (fun p => p.2)

/-- Shallow embedding of PinguTrader.closePosition (src/src/trading.ts,
lines 349-409).  hasSigner is whether the client holds a credential;
storePositions is what PositionStore.getUserPositions would return.
When no explicit size is given the current positions are read first
(one remote read, wrapped in withFallback in the source); a matching
position yields a reduce-only close order submitted remotely, while no
match throws the local validation error before any submission. -/
def closePosition (hasSigner : Bool) (assets : List (String × AssetCfg))
    (storePositions : List RawChainPosition) (params : ClosePosParams) :
    CloseRun :=
  if !hasSigner then
    { result := Except.error
        "Signer required for trading. Provide a privateKey to PinguClient.",
      remoteReads := 0, orderSubmits := 0 }
  else
    let assetName := params.asset.getD "USDC"
    match assetLookup assets assetName with
    | none =>
        { result := Except.error ("Unknown asset: " ++ assetName
            ++ ". Available: "
            ++ String.intercalate ", " (assets.map (fun p => p.1))),
          remoteReads := 0, orderSubmits := 0 }
    | some cfg =>
        match params.size with
        | some sz =>
            { result := Except.ok (createOrderTuple cfg.address params.market
                (!params.isLong) 0 sz 0 0 true),
              remoteReads := 0, orderSubmits := 1 }
        | none =>
            match (getPositionsRaw storePositions).find? (fun p =>
                p.market == params.market && p.isLong == params.isLong
                  && lowerStr p.asset == lowerStr cfg.address) with
            | none =>
                { result := Except.error ("No "
                    ++ (if params.isLong then "long" else "short")
                    ++ " position found for " ++ params.market
                    ++ " [" ++ assetName ++ "]"),
                  remoteReads := 1, orderSubmits := 0 }
            | some p =>
                { result := Except.ok (createOrderTuple cfg.address params.market
                    (!params.isLong) 0 p.sizeRaw 0 0 true),
                  remoteReads := 1, orderSubmits := 1 }

/-- A one-asset configuration for the C8 instances. -/
def usdcAssets : List (String × AssetCfg) :=
  [("USDC", { address := "0xaf88d065e77c8cC2239327C5EDb3A432268e5831",
              decimals := 6 })]

/-- Close-position parameters with no explicit size. -/
def paramsNoMatch : ClosePosParams :=
  { market := "ETH-USD", isLong := true, asset := none, size := none }

/-- C8 counterexample: with no size argument and no matching open
position, the call does fail with the local validation error and
submits no order, but the remote-call count is one (the position read
issued through withFallback), not zero as the claim states. -/
theorem closePosition_zero_remote_calls_counterexample :
    (closePosition true usdcAssets [] paramsNoMatch).result
        = Except.error "No long position found for ETH-USD [USDC]"
      ∧ (closePosition true usdcAssets [] paramsNoMatch).remoteReads
          + (closePosition true usdcAssets [] paramsNoMatch).orderSubmits ≠ 0 := by
  exact ⟨by decide, by decide⟩

/-- C8 amended: when closePosition is called without a size argument
and none of the caller's open positions matches the market, direction
and asset simultaneously, the call fails with the local validation
error and no remote order-submitting call is issued; the only remote
interaction is the single position read. -/
theorem closePosition_no_match_is_local_failure
    (assets : List (String × AssetCfg)) (store : List RawChainPosition)
    (params : ClosePosParams) (cfg : AssetCfg)
    (hsize : params.size = none)
    (hcfg : assetLookup assets (params.asset.getD "USDC") = some cfg)
    (hnomatch : ∀ p ∈ store, p.size ≠ 0 →
      ¬(p.market = params.market ∧ p.isLong = params.isLong
          ∧ lowerStr p.asset = lowerStr cfg.address)) :
    (closePosition true assets store params).result
        = Except.error ("No " ++ (if params.isLong then "long" else "short")
            ++ " position found for " ++ params.market
            ++ " [" ++ params.asset.getD "USDC" ++ "]")
      ∧ (closePosition true assets store params).orderSubmits = 0
      ∧ (closePosition true assets store params).remoteReads = 1 := by
  have hfind : (getPositionsRaw store).find? (fun p =>
      p.market == params.market && p.isLong == params.isLong
        && lowerStr p.asset == lowerStr cfg.address) = none := by
    rw [List.find?_eq_none]
    intro q hq
    simp only [getPositionsRaw, List.mem_map, List.mem_filter] at hq
    obtain ⟨p, ⟨hp, hpsz⟩, rfl⟩ := hq
    have hps : p.size ≠ 0 := by simpa using hpsz
    have hnm := hnomatch p hp hps
    simp only [Bool.and_eq_true, beq_iff_eq]
    tauto
  refine ⟨?_, ?_, ?_⟩ <;> simp [closePosition, hcfg, hsize, hfind]

/-- Witness for C8 at the empty position store. -/
theorem closePosition_no_match_is_local_failure_witness :
    (closePosition true usdcAssets [] paramsNoMatch).result
        = Except.error ("No "
            ++ (if paramsNoMatch.isLong then "long" else "short")
            ++ " position found for " ++ paramsNoMatch.market
            ++ " [" ++ paramsNoMatch.asset.getD "USDC" ++ "]")
      ∧ (closePosition true usdcAssets [] paramsNoMatch).orderSubmits = 0
      ∧ (closePosition true usdcAssets [] paramsNoMatch).remoteReads = 1 :=
  closePosition_no_match_is_local_failure usdcAssets [] paramsNoMatch
    { address := "0xaf88d065e77c8cC2239327C5EDb3A432268e5831", decimals := 6 }
    rfl rfl (fun p hp => absurd hp (List.not_mem_nil p))

/-! The Fixed-Point Amount Codec.  The repository functions formatUnits
and parseUnits delegate the digit-level work to the ethers library
(ethers.utils.formatUnits and parseUnits), which is not part of the
repository; those primitives are modelled from the spec below
(integer-and-decimal-string conversion, no floating point).  A decimal
numeral string is represented by its digit content: the digits before
the dot and, when a dot is present, the digits after it. -/

/-- A decimal numeral string: whole-part digits (most significant
first) and optional fraction-part digits (none when no dot). -/
structure DecimalString where
  whole : List Nat
  frac : Option (List Nat)
deriving DecidableEq

/-- Big-endian decimal digits of n as toString prints them (zero prints
as a single zero digit). -/
def natDigitsBE (n : Nat) : List Nat :=
  if n = 0 then [0] else (Nat.digits 10 n).reverse

/-- The numeric value a parser reads from a digit sequence, most
significant digit first. -/
def digitsVal (l : List Nat) : Nat := l.foldl (fun a d => 10 * a + d) 0

/-- Left-pad a digit sequence with zeros to the requested width (the
while-loop prepending zeros to the fraction in formatFixed). -/
def padLeftZeros (l : List Nat) (w : Nat) : List Nat :=
  List.replicate (w - l.length) 0 ++ l

/-- Drop every trailing zero digit (the fraction-trimming while-loop of
parseFixed). -/
def stripTrailingZeros (l : List Nat) : List Nat :=
  (l.reverse.dropWhile (fun d => d == 0)).reverse

/-- Drop trailing zero digits but keep at least one digit (the trimming
regex of formatFixed, whose first group matches a lone zero when the
fraction is all zeros). -/
def stripTrailingZerosKeepOne (l : List Nat) : List Nat :=
  if stripTrailingZeros l = [] then [0] else stripTrailingZeros l

/-- Modelled from the spec: ethers.utils.formatUnits (formatFixed), the
external primitive the repository formatUnits wraps.  Renders
x divided by 10^decimals: whole digits alone when decimals is zero,
else whole digits plus the zero-padded fraction trimmed of trailing
zeros keeping one digit. -/
def ethersFormatUnits (x : Nat) (decimals : Nat) : DecimalString :=
  if decimals = 0 then { whole := natDigitsBE x, frac := none }
  else
    { whole := natDigitsBE (x / 10 ^ decimals),
      frac := some (stripTrailingZerosKeepOne
        (padLeftZeros (natDigitsBE (x % 10 ^ decimals)) decimals)) }

/-- Shallow embedding of the repository formatUnits wrapper
(src/src/utils.ts, lines 9-15): a falsy amount short-circuits to the
plain zero numeral, otherwise ethers formats it. -/
def formatUnits (x : Nat) (decimals : Nat) : DecimalString :=
  if x = 0 then { whole := [0], frac := none } else ethersFormatUnits x decimals

/-- Modelled from the spec: ethers.utils.parseUnits (parseFixed), the
external primitive the repository parseUnits wraps.  The fraction
(a zero digit when absent) is trimmed of trailing zeros, must then fit
within the requested decimals (otherwise parseFixed throws: none), and
is right-padded back to the full width before being combined with the
whole part. -/
def ethersParseUnits (s : DecimalString) (decimals : Nat) : Option Nat :=
  let fraction0 := match s.frac with | some f => f | none => [0]
  let fraction1 := stripTrailingZeros fraction0
  if decimals < fraction1.length then none
  else
    let fraction2 := if fraction1 = [] then [0] else fraction1
    let fraction3 := fraction2 ++ List.replicate (decimals - fraction2.length) 0
    some (digitsVal s.whole * 10 ^ decimals + digitsVal fraction3)

/-- Shallow embedding of the repository parseUnits wrapper
(src/src/utils.ts, lines 22-35) applied to a numeral produced by
formatUnits: such numerals are nonempty (truthy) strings, so the
wrapper delegates to the ethers primitive unchanged. -/
def parseUnits (s : DecimalString) (decimals : Nat) : Option Nat :=
  ethersParseUnits s decimals

theorem digitsVal_foldl_from (B : List Nat) (a : Nat) :
    B.foldl (fun x d => 10 * x + d) a = a * 10 ^ B.length + digitsVal B := by
  induction B generalizing a with
  | nil => simp [digitsVal]
  | cons d B ih =>
    have h1 : (d :: B).foldl (fun x d => 10 * x + d) a
        = B.foldl (fun x d => 10 * x + d) (10 * a + d) := rfl
    have h2 : digitsVal (d :: B) = B.foldl (fun x d => 10 * x + d) (10 * 0 + d) := rfl
    rw [h1, h2, ih, ih (10 * 0 + d), List.length_cons, pow_succ]
    ring

theorem digitsVal_append (A B : List Nat) :
    digitsVal (A ++ B) = digitsVal A * 10 ^ B.length + digitsVal B := by
  rw [digitsVal, List.foldl_append, ← digitsVal, digitsVal_foldl_from]

theorem digitsVal_replicate_zero (n : Nat) :
    digitsVal (List.replicate n 0) = 0 := by
  induction n with
  | zero => rfl
  | succ n ih => rw [List.replicate_succ, digitsVal, List.foldl_cons]; simpa [digitsVal] using ih

theorem digitsVal_reverse_ofDigits (L : List Nat) :
    digitsVal L.reverse = Nat.ofDigits 10 L := by
  induction L with
  | nil => rfl
  | cons d L ih =>
    rw [List.reverse_cons, digitsVal_append, ih, Nat.ofDigits_cons]
    have hone : digitsVal [d] = d := by simp [digitsVal]
    rw [hone]
    simp only [List.length_singleton, pow_one]
    ring

theorem digitsVal_natDigitsBE (n : Nat) : digitsVal (natDigitsBE n) = n := by
  rw [natDigitsBE]
  by_cases hn : n = 0
  · subst hn; rfl
  · rw [if_neg hn, digitsVal_reverse_ofDigits, Nat.ofDigits_digits]

theorem digitsVal_padLeftZeros (l : List Nat) (w : Nat) :
    digitsVal (padLeftZeros l w) = digitsVal l := by
  rw [padLeftZeros, digitsVal_append, digitsVal_replicate_zero]
  ring

theorem digits_len_le_of_lt_pow {n d : Nat} (h : n < 10 ^ d) :
    (Nat.digits 10 n).length ≤ d := by
  by_cases hn : n = 0
  · subst hn; simp
  · by_contra hlen
    push_neg at hlen
    have h1 : 10 ^ (Nat.digits 10 n).length ≤ 10 * n :=
      Nat.base_pow_length_digits_le 10 n (by norm_num) hn
    have h2 : 10 ^ (d + 1) ≤ 10 ^ (Nat.digits 10 n).length :=
      Nat.pow_le_pow_right (by norm_num) hlen
    have h3 : 10 * 10 ^ d ≤ 10 * n := by
      calc 10 * 10 ^ d = 10 ^ (d + 1) := by rw [pow_succ]; ring
        _ ≤ 10 ^ (Nat.digits 10 n).length := h2
        _ ≤ 10 * n := h1
    have h4 : 10 ^ d ≤ n := Nat.le_of_mul_le_mul_left h3 (by norm_num)
    omega

theorem natDigitsBE_len_le {n d : Nat} (hn : n < 10 ^ d) (hd : d ≠ 0) :
    (natDigitsBE n).length ≤ d := by
  rw [natDigitsBE]
  by_cases h0 : n = 0
  · subst h0; simpa using Nat.one_le_iff_ne_zero.mpr hd
  · rw [if_neg h0, List.length_reverse]
    exact digits_len_le_of_lt_pow hn

theorem dropWhile_idem (p : Nat → Bool) (l : List Nat) :
    (l.dropWhile p).dropWhile p = l.dropWhile p := by
  induction l with
  | nil => rfl
  | cons a t ih =>
    by_cases hp : p a = true
    · simp [List.dropWhile_cons, hp, ih]
    · simp [List.dropWhile_cons, hp]

theorem stripTrailingZeros_idem (l : List Nat) :
    stripTrailingZeros (stripTrailingZeros l) = stripTrailingZeros l := by
  rw [stripTrailingZeros, stripTrailingZeros, List.reverse_reverse, dropWhile_idem]

theorem stripTrailingZeros_keepOne (l : List Nat) :
    stripTrailingZeros (stripTrailingZerosKeepOne l) = stripTrailingZeros l := by
  by_cases h : stripTrailingZeros l = []
  · rw [stripTrailingZerosKeepOne, if_pos h, h]; rfl
  · rw [stripTrailingZerosKeepOne, if_neg h, stripTrailingZeros_idem]

theorem strip_decomp (l : List Nat) :
    l = stripTrailingZeros l
      ++ List.replicate (l.length - (stripTrailingZeros l).length) 0 := by
  have hsplit : l.reverse.takeWhile (fun d => d == 0)
      ++ l.reverse.dropWhile (fun d => d == 0) = l.reverse :=
    List.takeWhile_append_dropWhile _ _
  have hrep : l.reverse.takeWhile (fun d => d == 0)
      = List.replicate (l.reverse.takeWhile (fun d => d == 0)).length 0 := by
    refine List.eq_replicate_of_mem (fun b hb => ?_)
    have := List.mem_takeWhile_imp hb
    simpa using this
  have hlen : (l.reverse.takeWhile (fun d => d == 0)).length
      + (l.reverse.dropWhile (fun d => d == 0)).length = l.length := by
    conv_rhs => rw [← List.length_reverse l, ← hsplit]
    rw [List.length_append]
  have hdrev : ((l.reverse.dropWhile (fun d => d == 0)).reverse).length
      = (l.reverse.dropWhile (fun d => d == 0)).length := List.length_reverse _
  conv_lhs => rw [← List.reverse_reverse l, ← hsplit]
  rw [List.reverse_append, stripTrailingZeros]
  congr 1
  rw [hrep, List.reverse_replicate]
  congr 1
  omega

theorem digitsVal_strip (l : List Nat) :
    digitsVal l = digitsVal (stripTrailingZeros l)
      * 10 ^ (l.length - (stripTrailingZeros l).length) := by
  conv_lhs => rw [strip_decomp l]
  rw [digitsVal_append, digitsVal_replicate_zero, List.length_replicate]
  ring

theorem stripTrailingZeros_length_le (l : List Nat) :
    (stripTrailingZeros l).length ≤ l.length := by
  rw [stripTrailingZeros, List.length_reverse]
  calc (l.reverse.dropWhile (fun d => d == 0)).length
      ≤ l.reverse.length := (List.dropWhile_sublist _).length_le
    _ = l.length := List.length_reverse l

theorem digitsVal_nil : digitsVal [] = 0 := rfl

theorem digitsVal_zero_pad (k : Nat) :
    digitsVal ([0] ++ List.replicate k 0) = 0 := by
  rw [digitsVal_append, digitsVal_replicate_zero]
  simp [digitsVal]

theorem digitsVal_zero_cons_pad (k : Nat) :
    digitsVal (0 :: List.replicate k 0) = 0 := by
  have h : (0 :: List.replicate k 0) = List.replicate (k + 1) 0 :=
    (List.replicate_succ 0 k).symm
  rw [h, digitsVal_replicate_zero]

theorem ethersParseUnits_none_frac (w : List Nat) (d : Nat) :
    ethersParseUnits { whole := w, frac := none } d
      = some (digitsVal w * 10 ^ d) := by
  have h0 : stripTrailingZeros [0] = [] := rfl
  simp only [ethersParseUnits, h0]
  rw [if_neg (by simp)]
  simp [digitsVal_zero_cons_pad, digitsVal_zero_pad, digitsVal_nil]

theorem ethersParseUnits_some_frac (w f : List Nat) (d : Nat)
    (hle : (stripTrailingZeros f).length ≤ d) :
    ethersParseUnits { whole := w, frac := some f } d
      = some (digitsVal w * 10 ^ d
          + digitsVal (stripTrailingZeros f)
            * 10 ^ (d - (stripTrailingZeros f).length)) := by
  simp only [ethersParseUnits]
  rw [if_neg (by omega)]
  by_cases hsf : stripTrailingZeros f = []
  · rw [hsf]
    simp [digitsVal_zero_cons_pad, digitsVal_zero_pad, digitsVal_nil]
  · rw [if_neg hsf]
    congr 1
    rw [digitsVal_append, digitsVal_replicate_zero, List.length_replicate]
    ring

/-- C6: round-trip identity of the fixed-point codec: for every
non-negative integer x and every decimal count d (including d = 0 and
x = 0), formatting x with formatUnits and parsing it back with
parseUnits returns exactly x. -/
theorem parseUnits_formatUnits_roundtrip (x d : Nat) :
    parseUnits (formatUnits x d) d = some x := by
  by_cases hx : x = 0
  · subst hx
    rw [formatUnits, if_pos rfl, parseUnits, ethersParseUnits_none_frac]
    simp [digitsVal]
  · rw [formatUnits, if_neg hx]
    by_cases hd : d = 0
    · subst hd
      rw [ethersFormatUnits, if_pos rfl, parseUnits, ethersParseUnits_none_frac]
      rw [digitsVal_natDigitsBE]
      norm_num
    · rw [ethersFormatUnits, if_neg hd, parseUnits]
      set F : List Nat := padLeftZeros (natDigitsBE (x % 10 ^ d)) d with hF
      have hpow : 0 < (10 : Nat) ^ d := Nat.pos_pow_of_pos d (by norm_num)
      have hFlen : F.length = d := by
        rw [hF, padLeftZeros, List.length_append, List.length_replicate]
        have := natDigitsBE_len_le (Nat.mod_lt x hpow) hd
        omega
      have hFval : digitsVal F = x % 10 ^ d := by
        rw [hF, digitsVal_padLeftZeros, digitsVal_natDigitsBE]
      have hslen : (stripTrailingZeros F).length ≤ d := by
        have := stripTrailingZeros_length_le F
        omega
      have hle2 : (stripTrailingZeros (stripTrailingZerosKeepOne F)).length ≤ d := by
        rw [stripTrailingZeros_keepOne]
        exact hslen
      rw [ethersParseUnits_some_frac _ _ _ hle2]
      rw [stripTrailingZeros_keepOne]
      have hfracval : digitsVal (stripTrailingZeros F)
          * 10 ^ (d - (stripTrailingZeros F).length) = x % 10 ^ d := by
        have := digitsVal_strip F
        rw [hFlen] at this
        rw [← this, hFval]
      rw [hfracval, digitsVal_natDigitsBE]
      congr 1
      rw [mul_comm (x / 10 ^ d) (10 ^ d)]
      exact Nat.div_add_mod x (10 ^ d)

end PinguSdk
